import Mathlib

/-!
Shallow embedding of the resumable job-queue subsystem of `content-ai`
(`src/content_ai/queue/sqlite_backend.py`, with its models in
`src/content_ai/queue/models.py` and hashing helpers in
`src/content_ai/queue/hashing.py`).

Modelling choices:
* The SQLite `job_items` table is a `List JobRow` (rows in insertion order;
  an `INSERT OR REPLACE` appends the fresh row at the end, matching a new
  rowid).  Timestamps are `Int` (ISO-8601 strings of a fixed format compare
  lexicographically exactly as the instants they denote compare, and SQL's
  `NULL < x` is `false`, modelled on `Option Int`).
* Each queue operation runs inside one SQLite transaction (`BEGIN
  IMMEDIATE` / `with conn`), so a concurrent execution is some serial
  interleaving of whole operations; every operation is embedded as a pure
  state transformer on the row list.
* The filesystem seen by `ack_success` is an association list
  `path ↦ content`; the SHA-256 of `hashlib` is an arbitrary function
  `hash : String → String` passed in as a parameter.
-/

namespace ContentAI

/-- `JobStatus` from `queue/models.py`: the six job processing states. -/
inductive JobStatus where
  | pending
  | running
  | succeeded
  | failed
  | dirty
  | skipped
  deriving DecidableEq, Repr

/-- One row of the `job_items` table (schema in `sqlite_backend.py`,
`SCHEMA_SQL`); also the shape of the `JobItem` model that
`_row_to_job_item` reconstructs. -/
structure JobRow where
  job_id : String
  video_path : String
  input_hash_quick : String
  input_hash_full : String
  input_size : Nat
  config_hash : String
  status : JobStatus
  priority : Nat
  attempt_count : Nat
  max_attempts : Nat
  created_at : Int
  updated_at : Option Int
  started_at : Option Int
  completed_at : Option Int
  last_heartbeat : Option Int
  worker_id : Option String
  last_error : Option String
  output_files : List String
  output_hashes : List (String × String)
  metadata : String
  deriving DecidableEq, Repr

/-- The `job_items` table: the single shared mutable state of the queue. -/
abbrev QueueState := List JobRow

/-- The `input_hashes` dictionary produced by `compute_input_hash`
(`queue/hashing.py`): quick hash, full hash and file size. -/
structure InputHashes where
  quick_hash : String
  full_hash : String
  size : Nat
  deriving DecidableEq, Repr

/-- `SQLiteManifest.get_item_state`: point lookup of the row whose
`video_path` equals the given path (`rows_where "video_path = ?"`;
`video_path` carries a UNIQUE constraint, so the first match is the row). -/
def get_item_state (db : QueueState) (video_path : String) : Option JobRow :=
  db.find? (fun r => r.video_path = video_path)

/-- `SQLiteManifest.verify_hashes`: tiered dirty detection.  Returns
`(is_clean, reason)`.  Tier 0 config hash, tier 1 size, tier 2 quick hash
(match concludes clean), tier 3 full hash. -/
def verify_hashes (db : QueueState) (video_path : String) (config_hash : String)
    (input_hashes : InputHashes) : Bool × String :=
  match get_item_state db video_path with
  | none => (false, "Item not in manifest")
  | some item =>
    if item.config_hash ≠ config_hash then
      (false, "Config changed")
    else if item.input_size ≠ input_hashes.size then
      (false, "File size changed")
    else if item.input_hash_quick = input_hashes.quick_hash then
      (true, "Content unchanged (quick hash match)")
    else if item.input_hash_full ≠ input_hashes.full_hash then
      (false, "File content changed")
    else
      (true, "Metadata changed, content unchanged")

/-- `SQLiteManifest.mark_dirty`: force the row for `video_path` to status
`dirty` and bump `updated_at`. -/
def mark_dirty (db : QueueState) (video_path : String) (now : Int) : QueueState :=
  db.map (fun r =>
    if r.video_path = video_path then
      { r with status := .dirty, updated_at := some now }
    else r)

/-- `SQLiteManifest.upsert_item` as invoked with `pk="job_id", replace=True`:
an `INSERT OR REPLACE` deletes every row conflicting on a uniqueness
constraint (the `job_id` primary key or the UNIQUE `video_path`) and
inserts the fresh row (a new rowid, hence appended). -/
def upsert_item (db : QueueState) (row : JobRow) : QueueState :=
  db.filter (fun r => r.job_id ≠ row.job_id ∧ r.video_path ≠ row.video_path) ++ [row]

/-- The row `SQLiteQueue.enqueue` builds from a `JobItem`: only the keys of
its `state` dict are set; the remaining columns of `job_items` are left
NULL / empty by the insert. -/
def rowOfEnqueue (item : JobRow) : JobRow :=
  { job_id := item.job_id
    video_path := item.video_path
    input_hash_quick := item.input_hash_quick
    input_hash_full := item.input_hash_full
    input_size := item.input_size
    config_hash := item.config_hash
    status := item.status
    priority := item.priority
    attempt_count := item.attempt_count
    max_attempts := item.max_attempts
    created_at := item.created_at
    updated_at := none
    started_at := none
    completed_at := none
    last_heartbeat := none
    worker_id := none
    last_error := none
    output_files := []
    output_hashes := []
    metadata := item.metadata }

/-- `SQLiteQueue.enqueue`: no-op when an existing record for the same
`video_path` is `succeeded` or `running`; otherwise upsert the item. -/
def enqueue (db : QueueState) (item : JobRow) : QueueState :=
  match get_item_state db item.video_path with
  | some existing =>
    if existing.status = .succeeded ∨ existing.status = .running then db
    else upsert_item db (rowOfEnqueue item)
  | none => upsert_item db (rowOfEnqueue item)

/-- `ORDER BY priority DESC, created_at ASC`: row `a` sorts strictly before
row `b`. -/
def ordersBefore (a b : JobRow) : Bool :=
  b.priority < a.priority ∨ (a.priority = b.priority ∧ a.created_at < b.created_at)

/-- One step of scanning for the first row of the sorted order. -/
def pickBetter (best : Option JobRow) (r : JobRow) : Option JobRow :=
  match best with
  | none => some r
  | some b => if ordersBefore r b then some r else some b

/-- The dequeue subquery `SELECT job_id FROM job_items WHERE status = 'pending'
ORDER BY priority DESC, created_at ASC LIMIT 1`: the sort is stable on the
underlying row order, so ties keep the earlier row. -/
def selectNext (db : QueueState) : Option JobRow :=
  (db.filter (fun r => r.status = .pending)).foldl pickBetter none

/-- The SET-clause of the dequeue UPDATE: claim a row for a worker. -/
def claimUpdate (worker_id : String) (now : Int) (r : JobRow) : JobRow :=
  { r with status := .running, worker_id := some worker_id,
           started_at := some now, last_heartbeat := some now }

/-- `SQLiteQueue._dequeue_with_retry`, the committed `BEGIN IMMEDIATE`
transaction: atomically select the best pending job, set `status=running`,
`worker_id`, `started_at` and `last_heartbeat` on it, and return the
updated row (`UPDATE ... RETURNING *`).  The bounded busy-retry loop only
re-runs this same transaction, so its committed effect is this function. -/
def dequeue (db : QueueState) (worker_id : String) (now : Int) :
    Option JobRow × QueueState :=
  match selectNext db with
  | none => (none, db)
  | some j =>
    (some (claimUpdate worker_id now j),
     db.map (fun r => if r.job_id = j.job_id then claimUpdate worker_id now r else r))

/-- N successive `dequeue` calls, one per worker id: the serialization of N
concurrent callers (each call is one `BEGIN IMMEDIATE` write transaction,
so any concurrent execution commits as some such sequence). -/
def runDequeues (db : QueueState) (workers : List String) (now : Int) :
    List (Option JobRow) × QueueState :=
  match workers with
  | [] => ([], db)
  | w :: rest =>
    let step := dequeue db w now
    let next := runDequeues step.2 rest now
    (step.1 :: next.1, next.2)

/-- The `job_id`s of the pending rows, in table order. -/
def pendingIds (db : QueueState) : List String :=
  (db.filter (fun r => r.status = .pending)).map JobRow.job_id

/-- `db'` contains no `succeeded` row that was not already `succeeded` in
`db` (under the same `job_id`). -/
def noNewSucceeded (db db' : QueueState) : Prop :=
  ∀ r' ∈ db', r'.status = .succeeded →
    ∃ r ∈ db, r.job_id = r'.job_id ∧ r.status = .succeeded

/-- The filesystem `ack_success` validates against: path ↦ file content. -/
abbrev FileSystem := List (String × String)

/-- Content of a path, `none` when the path does not exist. -/
def fsLookup (fs : FileSystem) (path : String) : Option String :=
  (fs.find? (fun e => e.1 = path)).map (·.2)

/-- `Path(output_file).exists()` / `os.path.exists`. -/
def fsExists (fs : FileSystem) (path : String) : Bool :=
  (fsLookup fs path).isSome

/-- `compute_output_hash` (queue/hashing.py): `FileNotFoundError` when the
path is absent, otherwise the SHA-256 (parameter `hash`) of the whole
content — note it never rejects an existing empty file. -/
def compute_output_hash (hash : String → String) (fs : FileSystem) (path : String) :
    Except String String :=
  match fsLookup fs path with
  | none => Except.error ("Output file not found: " ++ path)
  | some content => Except.ok (hash content)

/-- The first validation loop of `ack_success`: the first listed output file
that fails `Path(output_file).exists()`. -/
def firstMissing (fs : FileSystem) (files : List String) : Option String :=
  files.find? (fun p => ¬ fsExists fs p)

/-- The hashing loop of `ack_success`: build the `output_hashes` dict,
wrapping any hashing failure in a `ValueError`. -/
def hashOutputs (hash : String → String) (fs : FileSystem) :
    List String → Except String (List (String × String))
  | [] => Except.ok []
  | p :: rest =>
    match compute_output_hash hash fs p with
    | Except.error e => Except.error ("Failed to hash output " ++ p ++ ": " ++ e)
    | Except.ok h =>
      match hashOutputs hash fs rest with
      | Except.error e => Except.error e
      | Except.ok hs => Except.ok ((p, h) :: hs)

/-- `SQLiteQueue.ack_success`: validate that every listed output file
exists, compute their hashes, then atomically set `status=succeeded`,
`completed_at`, `output_files` and `output_hashes` on the row with the
given `job_id` (no guard on the row's current status). -/
def ack_success (hash : String → String) (fs : FileSystem) (db : QueueState)
    (job_id : String) (output_files : List String) (now : Int) :
    Except String QueueState :=
  match firstMissing fs output_files with
  | some p => Except.error ("Output file missing: " ++ p)
  | none =>
    match hashOutputs hash fs output_files with
    | Except.error e => Except.error e
    | Except.ok output_hashes =>
      Except.ok (db.map (fun r =>
        if r.job_id = job_id then
          { r with status := .succeeded, completed_at := some now,
                   output_files := output_files, output_hashes := output_hashes }
        else r))

/-- `SQLiteQueue.get_status`: lookup by `job_id`. -/
def get_status (db : QueueState) (job_id : String) : Option JobRow :=
  db.find? (fun r => r.job_id = job_id)

/-- `error[:500] if error else None`: an empty error string is falsy in
Python, so it stores NULL; otherwise the first 500 characters. -/
def truncate_error (error : String) : Option String :=
  if error = "" then none else some (error.take 500)

/-- `SQLiteQueue.ack_fail`: look the job up (a missing job raises a
`KeyError` on `['video_path']`), increment `attempt_count`; with
`retry=True` while the new count is below `max_attempts`, back to `pending`
with `worker_id` cleared, else terminal `failed` with `completed_at`. -/
def ack_fail (db : QueueState) (job_id : String) (error : String) (retry : Bool)
    (now : Int) : Except String QueueState :=
  match get_status db job_id with
  | none => Except.error "KeyError: video_path"
  | some st =>
    match get_item_state db st.video_path with
    | none => Except.error "item not found"
    | some item =>
      let new_attempt := item.attempt_count + 1
      let error_snippet := truncate_error error
      if retry ∧ new_attempt < item.max_attempts then
        Except.ok (db.map (fun r =>
          if r.job_id = job_id then
            { r with status := .pending, attempt_count := new_attempt,
                     last_error := error_snippet, worker_id := none }
          else r))
      else
        Except.ok (db.map (fun r =>
          if r.job_id = job_id then
            { r with status := .failed, completed_at := some now,
                     attempt_count := new_attempt, last_error := error_snippet }
          else r))

/-- The WHERE clause of `reset_stale_running`: a running row whose
`last_heartbeat` is older than 600 s, or which started more than
`timeout_s` ago and never heartbeat.  SQL `NULL < x` is not true. -/
def is_stale (now : Int) (timeout_s : Int) (r : JobRow) : Bool :=
  decide (r.status = .running) &&
  ((match r.last_heartbeat with
    | some hb => decide (hb < now - 600)
    | none => false) ||
   ((match r.started_at with
     | some st => decide (st < now - timeout_s)
     | none => false) && decide (r.last_heartbeat = none)))

/-- `SQLiteQueue.reset_stale_running`: set every stale running row back to
`pending` with `worker_id` cleared (touching nothing else), returning the
new state and the count of reset rows (`RETURNING job_id` row count). -/
def reset_stale_running (db : QueueState) (timeout_s : Int) (now : Int) :
    QueueState × Nat :=
  (db.map (fun r =>
     if is_stale now timeout_s r then
       { r with status := .pending, worker_id := none }
     else r),
   (db.filter (is_stale now timeout_s)).length)

/-- `SQLiteQueue.update_heartbeat`: bump `last_heartbeat` only on the row
with this `job_id` while it is `running`. -/
def update_heartbeat (db : QueueState) (job_id : String) (now : Int) : QueueState :=
  db.map (fun r =>
    if r.job_id = job_id ∧ r.status = .running then
      { r with last_heartbeat := some now }
    else r)

/-- A concrete `job_items` row for witnesses and counterexamples. -/
def mkRow (jid path : String) (st : JobStatus) (prio : Nat) (created : Int) : JobRow :=
  { job_id := jid
    video_path := path
    input_hash_quick := "q"
    input_hash_full := "f"
    input_size := 100
    config_hash := "cfg"
    status := st
    priority := prio
    attempt_count := 0
    max_attempts := 3
    created_at := created
    updated_at := none
    started_at := none
    completed_at := none
    last_heartbeat := none
    worker_id := none
    last_error := none
    output_files := []
    output_hashes := []
    metadata := "" }

/-- Four pending jobs enqueued with priorities [1, 5, 1, 5] in that order,
with strictly increasing `created_at`. -/
def dbFour : QueueState :=
  [mkRow "job1" "/v1" .pending 1 1, mkRow "job2" "/v2" .pending 5 2,
   mkRow "job3" "/v3" .pending 1 3, mkRow "job4" "/v4" .pending 5 4]

/-- A queue holding one freshly enqueued job with `max_attempts = 3`. -/
def scenarioDb : QueueState := [mkRow "j1" "/v" .pending 0 1]

end ContentAI

namespace ContentAI

/-- C10: a path absent from the manifest is always reported dirty with
reason "Item not in manifest", whatever the config hash and input hashes. -/
theorem verify_hashes_not_in_manifest (db : QueueState) (path config_hash : String)
    (ih : InputHashes) (h : get_item_state db path = none) :
    verify_hashes db path config_hash ih = (false, "Item not in manifest") := by
  simp [verify_hashes, h]

/-- Witness for `verify_hashes_not_in_manifest` at a concrete input. -/
theorem verify_hashes_not_in_manifest_witness :
    get_item_state [] "/v/a.mp4" = none ∧
      verify_hashes [] "/v/a.mp4" "cfg" ⟨"q", "f", 7⟩ = (false, "Item not in manifest") :=
  ⟨by decide, verify_hashes_not_in_manifest [] "/v/a.mp4" "cfg" ⟨"q", "f", 7⟩ (by decide)⟩

/-- C4: `verify_hashes` compares config hash, then size, then quick hash,
then full hash, short-circuiting on the first mismatch: dirty on a config
difference whatever the content hashes; dirty on a size difference; clean
on a quick-hash match regardless of the full hash; dirty when quick and
full hash both differ; clean when the quick hash differs but the full hash
matches. -/
theorem verify_hashes_tiers (db : QueueState) (path cfg : String) (ih : InputHashes)
    (item : JobRow) (h : get_item_state db path = some item) :
    (item.config_hash ≠ cfg →
        verify_hashes db path cfg ih = (false, "Config changed")) ∧
    (item.config_hash = cfg → item.input_size ≠ ih.size →
        verify_hashes db path cfg ih = (false, "File size changed")) ∧
    (item.config_hash = cfg → item.input_size = ih.size →
        item.input_hash_quick = ih.quick_hash →
        verify_hashes db path cfg ih = (true, "Content unchanged (quick hash match)")) ∧
    (item.config_hash = cfg → item.input_size = ih.size →
        item.input_hash_quick ≠ ih.quick_hash → item.input_hash_full ≠ ih.full_hash →
        verify_hashes db path cfg ih = (false, "File content changed")) ∧
    (item.config_hash = cfg → item.input_size = ih.size →
        item.input_hash_quick ≠ ih.quick_hash → item.input_hash_full = ih.full_hash →
        verify_hashes db path cfg ih = (true, "Metadata changed, content unchanged")) := by
  refine ⟨?_, ?_, ?_, ?_, ?_⟩ <;> intros <;> simp [verify_hashes, h, *]

/-- Witness for `verify_hashes_tiers`: a stored entry whose content hashes
all match but whose config hash differs is reported dirty. -/
theorem verify_hashes_tiers_witness :
    get_item_state [mkRow "j1" "/v" .succeeded 0 1] "/v" = some (mkRow "j1" "/v" .succeeded 0 1) ∧
      verify_hashes [mkRow "j1" "/v" .succeeded 0 1] "/v" "cfg2" ⟨"q", "f", 100⟩ =
        (false, "Config changed") :=
  ⟨by decide,
   (verify_hashes_tiers [mkRow "j1" "/v" .succeeded 0 1] "/v" "cfg2" ⟨"q", "f", 100⟩
      (mkRow "j1" "/v" .succeeded 0 1) (by decide)).1 (by decide)⟩

/-- C2 (code-bug evidence): `ack_success` accepts an output file that
exists but is empty — the existence loop passes, `compute_output_hash`
happily hashes zero bytes, and the row is committed `succeeded`; only a
nonexistent path raises.  The emptiness check lives in
`verify_output_integrity` (queue/hashing.py), which documents itself as
"Used by: ack_success() before marking job succeeded" but is never called
there. -/
theorem ack_success_empty_output_commits :
    (ack_success (fun s => s) [("out.mp4", "")]
        [mkRow "j1" "/v" .running 0 1] "j1" ["out.mp4"] 9 =
      Except.ok [{ mkRow "j1" "/v" .running 0 1 with
                    status := .succeeded, completed_at := some 9,
                    output_files := ["out.mp4"], output_hashes := [("out.mp4", "")] }]) ∧
    (ack_success (fun s => s) [] [mkRow "j1" "/v" .running 0 1] "j1" ["out.mp4"] 9 =
      Except.error "Output file missing: out.mp4") := by
  constructor <;> rfl

theorem get_item_state_upsert_self (db : QueueState) (row : JobRow) :
    get_item_state (upsert_item db row) row.video_path = some row := by
  unfold get_item_state upsert_item
  rw [List.find?_append]
  have h1 : (db.filter
      (fun r => r.job_id ≠ row.job_id ∧ r.video_path ≠ row.video_path)).find?
      (fun r => r.video_path = row.video_path) = none := by
    rw [List.find?_eq_none]
    intro x hx
    have h2 := of_decide_eq_true (List.mem_filter.mp hx).2
    simp only [decide_eq_true_eq]
    exact h2.2
  simp [h1]

theorem filter_path_upsert (db : QueueState) (row : JobRow) :
    ((upsert_item db row).filter (fun r => r.video_path = row.video_path)).length = 1 := by
  unfold upsert_item
  rw [List.filter_append]
  have h1 : (db.filter
      (fun r => r.job_id ≠ row.job_id ∧ r.video_path ≠ row.video_path)).filter
      (fun r => r.video_path = row.video_path) = [] := by
    rw [List.filter_eq_nil_iff]
    intro x hx
    have h2 := of_decide_eq_true (List.mem_filter.mp hx).2
    simp only [decide_eq_true_eq]
    exact h2.2
  rw [h1]
  simp

/-- C7: `enqueue` is idempotent on `video_path`: a no-op when the existing
record is `running` or `succeeded`; otherwise the record for that path is
inserted or overwritten, leaving exactly one row for the path — so a double
enqueue of the same path before any dequeue leaves exactly one pending
(dequeue-able) job. -/
theorem enqueue_idempotent (db : QueueState) (item : JobRow) :
    (∀ ex, get_item_state db item.video_path = some ex →
        (ex.status = .succeeded ∨ ex.status = .running) → enqueue db item = db) ∧
    ((∀ ex, get_item_state db item.video_path = some ex →
        ex.status ≠ .succeeded ∧ ex.status ≠ .running) →
      get_item_state (enqueue db item) item.video_path = some (rowOfEnqueue item) ∧
      ((enqueue db item).filter (fun r => r.video_path = item.video_path)).length = 1) ∧
    (enqueue (enqueue [] (mkRow "a" "/v" .pending 0 1)) (mkRow "b" "/v" .pending 0 2) =
        [rowOfEnqueue (mkRow "b" "/v" .pending 0 2)] ∧
      (rowOfEnqueue (mkRow "b" "/v" .pending 0 2)).status = .pending) := by
  refine ⟨?_, ?_, by constructor <;> rfl⟩
  · intro ex hex hst
    unfold enqueue
    rw [hex]
    rcases hst with h | h <;> simp [h]
  · intro hno
    have hpath : (rowOfEnqueue item).video_path = item.video_path := rfl
    have hgoal : enqueue db item = upsert_item db (rowOfEnqueue item) := by
      unfold enqueue
      cases hcase : get_item_state db item.video_path with
      | none => rfl
      | some ex =>
        have hne := hno ex hcase
        simp [hne.1, hne.2]
    rw [hgoal]
    constructor
    · have := get_item_state_upsert_self db (rowOfEnqueue item)
      rwa [hpath] at this
    · have := filter_path_upsert db (rowOfEnqueue item)
      rwa [hpath] at this

/-- Witness for `enqueue_idempotent`: enqueue onto a `succeeded` record is
a no-op at a concrete state. -/
theorem enqueue_idempotent_witness :
    enqueue [mkRow "j" "/v" .succeeded 0 1] (mkRow "b" "/v" .pending 0 2) =
      [mkRow "j" "/v" .succeeded 0 1] :=
  (enqueue_idempotent [mkRow "j" "/v" .succeeded 0 1] (mkRow "b" "/v" .pending 0 2)).1
    (mkRow "j" "/v" .succeeded 0 1) (by decide) (by decide)

/-- C6: `reset_stale_running` maps the table row-by-row: every running row
whose `started_at` is older than the timeout with a null `last_heartbeat`
is reset to `pending` with `worker_id` cleared and nothing else changed
(in particular `attempt_count` survives on every row); a running row with
a fresh heartbeat (within the 600 s liveness window) is left entirely
untouched; the returned count is the number of stale rows. -/
theorem reset_stale_correct (db : QueueState) (timeout_s now : Int) :
    List.Forall₂ (fun r r' =>
        r'.attempt_count = r.attempt_count ∧
        (r.status = .running → r.last_heartbeat = none →
          ∀ st, r.started_at = some st → st < now - timeout_s →
          r' = { r with status := .pending, worker_id := none }) ∧
        (r.status = .running → ∀ hb, r.last_heartbeat = some hb → now - 600 ≤ hb →
          r' = r))
      db (reset_stale_running db timeout_s now).1 ∧
    (reset_stale_running db timeout_s now).2 =
      (db.filter (is_stale now timeout_s)).length := by
  refine ⟨?_, rfl⟩
  rw [reset_stale_running, List.forall₂_map_right_iff]
  refine List.forall₂_same.mpr (fun r _ => ⟨?_, ?_, ?_⟩)
  · by_cases h : is_stale now timeout_s r = true <;> simp [h]
  · intro hrun hhb st hst hold
    have hstale : is_stale now timeout_s r = true := by
      simp [is_stale, hrun, hhb, hst, hold]
    simp [hstale]
  · intro hrun hb hhb hfresh
    have hstale : is_stale now timeout_s r = false := by
      simp [is_stale, hrun, hhb]
      omega
    simp [hstale]

/-- Witness for `reset_stale_correct`: its statement instantiated at a
concrete two-row table — one stale running row, one freshly heartbeating
one. -/
theorem reset_stale_correct_witness :
    List.Forall₂ (fun r r' =>
        r'.attempt_count = r.attempt_count ∧
        (r.status = .running → r.last_heartbeat = none →
          ∀ st, r.started_at = some st → st < (10000 : Int) - 100 →
          r' = { r with status := .pending, worker_id := none }) ∧
        (r.status = .running → ∀ hb, r.last_heartbeat = some hb → (10000 : Int) - 600 ≤ hb →
          r' = r))
      [{ mkRow "a" "/a" .running 0 1 with started_at := some 0, worker_id := some "w1" },
       { mkRow "b" "/b" .running 0 1 with started_at := some 9000, last_heartbeat := some 9900 }]
      (reset_stale_running
        [{ mkRow "a" "/a" .running 0 1 with started_at := some 0, worker_id := some "w1" },
         { mkRow "b" "/b" .running 0 1 with started_at := some 9000, last_heartbeat := some 9900 }]
        100 10000).1 ∧
    (reset_stale_running
        [{ mkRow "a" "/a" .running 0 1 with started_at := some 0, worker_id := some "w1" },
         { mkRow "b" "/b" .running 0 1 with started_at := some 9000, last_heartbeat := some 9900 }]
        100 10000).2 =
      ([{ mkRow "a" "/a" .running 0 1 with started_at := some 0, worker_id := some "w1" },
        { mkRow "b" "/b" .running 0 1 with started_at := some 9000, last_heartbeat := some 9900 }].filter
        (is_stale 10000 100)).length :=
  reset_stale_correct
    [{ mkRow "a" "/a" .running 0 1 with started_at := some 0, worker_id := some "w1" },
     { mkRow "b" "/b" .running 0 1 with started_at := some 9000, last_heartbeat := some 9900 }]
    100 10000

theorem ordersBefore_iff (a b : JobRow) :
    ordersBefore a b = true ↔
      b.priority < a.priority ∨ (a.priority = b.priority ∧ a.created_at < b.created_at) := by
  simp [ordersBefore]

theorem ordersBefore_irrefl (a : JobRow) : ordersBefore a a = false := by
  simp [ordersBefore]

theorem ordersBefore_trans {a b c : JobRow} (h1 : ordersBefore a b = true)
    (h2 : ordersBefore b c = true) : ordersBefore a c = true := by
  rw [ordersBefore_iff] at h1 h2 ⊢
  omega

theorem ordersBefore_asymm {a b : JobRow} (h1 : ordersBefore a b = true) :
    ordersBefore b a = false := by
  cases hba : ordersBefore b a with
  | false => rfl
  | true =>
    exfalso
    rw [ordersBefore_iff] at h1 hba
    omega

theorem foldl_pickBetter_some (l : List JobRow) (b : JobRow) :
    ∃ c, l.foldl pickBetter (some b) = some c ∧ (c = b ∨ c ∈ l) := by
  induction l generalizing b with
  | nil => exact ⟨b, rfl, Or.inl rfl⟩
  | cons x xs ih =>
    rw [List.foldl_cons]
    by_cases h : ordersBefore x b = true
    · rw [show pickBetter (some b) x = some x by simp [pickBetter, h]]
      obtain ⟨c, hc, hm⟩ := ih x
      refine ⟨c, hc, Or.inr ?_⟩
      rcases hm with rfl | hm
      · exact List.mem_cons_self _ _
      · exact List.mem_cons_of_mem _ hm
    · rw [show pickBetter (some b) x = some b by simp [pickBetter, h]]
      obtain ⟨c, hc, hm⟩ := ih b
      refine ⟨c, hc, ?_⟩
      rcases hm with rfl | hm
      · exact Or.inl rfl
      · exact Or.inr (List.mem_cons_of_mem x hm)

theorem foldl_pickBetter_best (l : List JobRow) (b c : JobRow)
    (hc : l.foldl pickBetter (some b) = some c) :
    (c = b ∨ ordersBefore c b = true) ∧ ∀ x ∈ l, ordersBefore x c = false := by
  induction l generalizing b with
  | nil =>
    cases hc
    exact ⟨Or.inl rfl, by intro x hx; cases hx⟩
  | cons x xs ih =>
    rw [List.foldl_cons] at hc
    by_cases h : ordersBefore x b = true
    · rw [show pickBetter (some b) x = some x by simp [pickBetter, h]] at hc
      obtain ⟨hcb, hbest⟩ := ih x hc
      constructor
      · right
        rcases hcb with rfl | hcx
        · exact h
        · exact ordersBefore_trans hcx h
      · intro y hy
        rcases List.mem_cons.mp hy with rfl | hy
        · rcases hcb with rfl | hcx
          · exact ordersBefore_irrefl _
          · exact ordersBefore_asymm hcx
        · exact hbest y hy
    · rw [show pickBetter (some b) x = some b by simp [pickBetter, h]] at hc
      obtain ⟨hcb, hbest⟩ := ih b hc
      refine ⟨hcb, ?_⟩
      intro y hy
      rcases List.mem_cons.mp hy with rfl | hy
      · cases hxc : ordersBefore y c with
        | false => rfl
        | true =>
          exfalso
          rcases hcb with rfl | hcb2
          · exact h hxc
          · exact h (ordersBefore_trans hxc hcb2)
      · exact hbest y hy

theorem selectNext_spec (db : QueueState) (j : JobRow) (h : selectNext db = some j) :
    j ∈ db ∧ j.status = .pending ∧
      ∀ r ∈ db, r.status = .pending → ordersBefore r j = false := by
  unfold selectNext at h
  cases hf : db.filter (fun r => r.status = .pending) with
  | nil => rw [hf] at h; cases h
  | cons x xs =>
    rw [hf, List.foldl_cons] at h
    rw [show pickBetter none x = some x from rfl] at h
    obtain ⟨c, hc, hm⟩ := foldl_pickBetter_some xs x
    rw [h] at hc
    injection hc with hc
    subst hc
    obtain ⟨hcb, hbest⟩ := foldl_pickBetter_best xs x j h
    have hj_filter : j ∈ db.filter (fun r => r.status = .pending) := by
      rw [hf]
      rcases hm with rfl | hm
      · exact List.mem_cons_self _ _
      · exact List.mem_cons_of_mem _ hm
    have hj := List.mem_filter.mp hj_filter
    refine ⟨hj.1, by simpa using hj.2, ?_⟩
    intro r hr hrp
    have hr_filter : r ∈ db.filter (fun r => r.status = .pending) :=
      List.mem_filter.mpr ⟨hr, by simpa using hrp⟩
    rw [hf] at hr_filter
    rcases List.mem_cons.mp hr_filter with rfl | hr_xs
    · rcases hcb with rfl | hcx
      · exact ordersBefore_irrefl _
      · exact ordersBefore_asymm hcx
    · exact hbest r hr_xs

theorem selectNext_eq_none (db : QueueState) :
    selectNext db = none ↔ db.filter (fun r => r.status = .pending) = [] := by
  unfold selectNext
  cases hf : db.filter (fun r => r.status = .pending) with
  | nil => simp
  | cons x xs =>
    simp only [List.foldl_cons]
    rw [show pickBetter none x = some x from rfl]
    obtain ⟨c, hc, _⟩ := foldl_pickBetter_some xs x
    rw [hc]
    simp

/-- C5 counterexample: the dequeue UPDATE's subquery filters on
`status = 'pending'` only, so a queue whose only job is `dirty` yields no
job at all — the claim that `dequeue` selects among pending *or dirty*
jobs fails on the code. -/
theorem dequeue_ignores_dirty_counterexample :
    (mkRow "j1" "/v" .dirty 5 1).status = .dirty ∧
      dequeue [mkRow "j1" "/v" .dirty 5 1] "w1" 7 = (none, [mkRow "j1" "/v" .dirty 5 1]) :=
  ⟨rfl, rfl⟩

/-- C5 amended: `dequeue` selects the best-eligible job among those whose
status is `pending` only (a queue whose only job is `dirty` returns no
job and is left unchanged); whenever it does return a job, that job was a
pending row and the one atomic step set `status=running`, `worker_id`,
`started_at` and `last_heartbeat` on it. -/
theorem dequeue_claims_only_pending (db : QueueState) (w : String) (now : Int) :
    (∀ j', (dequeue db w now).1 = some j' →
      ∃ j ∈ db, j.status = .pending ∧ j'.job_id = j.job_id ∧
        j'.status = .running ∧ j'.worker_id = some w ∧
        j'.started_at = some now ∧ j'.last_heartbeat = some now) ∧
    ((∀ r ∈ db, r.status ≠ .pending) → dequeue db w now = (none, db)) := by
  constructor
  · intro j' hj'
    unfold dequeue at hj'
    cases hsel : selectNext db with
    | none => rw [hsel] at hj'; cases hj'
    | some j =>
      rw [hsel] at hj'
      injection hj' with hj'
      obtain ⟨hmem, hpend, _⟩ := selectNext_spec db j hsel
      exact ⟨j, hmem, hpend, by rw [← hj']; rfl, by rw [← hj']; rfl,
        by rw [← hj']; rfl, by rw [← hj']; rfl, by rw [← hj']; rfl⟩
  · intro hno
    have hfe : db.filter (fun r => r.status = .pending) = [] := by
      rw [List.filter_eq_nil_iff]
      intro r hr
      simpa using hno r hr
    unfold dequeue
    rw [(selectNext_eq_none db).mpr hfe]

/-- Witness for `dequeue_claims_only_pending`: at a one-dirty-job queue the
no-eligible-job branch fires. -/
theorem dequeue_claims_only_pending_witness :
    dequeue [mkRow "j2" "/v" .dirty 5 1] "w9" 3 = (none, [mkRow "j2" "/v" .dirty 5 1]) :=
  (dequeue_claims_only_pending [mkRow "j2" "/v" .dirty 5 1] "w9" 3).2 (by decide)

/-- C8: every job `dequeue` returns is optimal among the pending rows —
maximal `priority`, and among equal priorities the earliest `created_at`
(FIFO); in particular four jobs enqueued with priorities [1, 5, 1, 5] at
increasing timestamps are dequeued as job2, job4, job1, job3. -/
theorem dequeue_priority_fifo (db : QueueState) (w : String) (now : Int) (j' : JobRow)
    (h : (dequeue db w now).1 = some j') :
    (∃ j ∈ db, j.status = .pending ∧ j'.job_id = j.job_id ∧
      ∀ r ∈ db, r.status = .pending →
        r.priority ≤ j.priority ∧ (r.priority = j.priority → j.created_at ≤ r.created_at)) ∧
    ((runDequeues dbFour ["w1", "w2", "w3", "w4"] 10).1.map (fun o => o.map JobRow.job_id) =
      [some "job2", some "job4", some "job1", some "job3"]) := by
  refine ⟨?_, by rfl⟩
  unfold dequeue at h
  cases hsel : selectNext db with
  | none => rw [hsel] at h; cases h
  | some j =>
    rw [hsel] at h
    injection h with h
    obtain ⟨hmem, hpend, hbest⟩ := selectNext_spec db j hsel
    refine ⟨j, hmem, hpend, by rw [← h]; rfl, ?_⟩
    intro r hr hrp
    have hb := hbest r hr hrp
    have hnp : ¬(j.priority < r.priority ∨
        (r.priority = j.priority ∧ r.created_at < j.created_at)) := by
      rw [← ordersBefore_iff r j]
      simp [hb]
    push_neg at hnp
    exact hnp

/-- Witness for `dequeue_priority_fifo` at the concrete four-job queue:
the first dequeue claims job2 (priority 5, earliest among priority 5). -/
theorem dequeue_priority_fifo_witness :
    (∃ j ∈ dbFour, j.status = .pending ∧
        (claimUpdate "w1" 10 (mkRow "job2" "/v2" .pending 5 2)).job_id = j.job_id ∧
      ∀ r ∈ dbFour, r.status = .pending →
        r.priority ≤ j.priority ∧ (r.priority = j.priority → j.created_at ≤ r.created_at)) ∧
    ((runDequeues dbFour ["w1", "w2", "w3", "w4"] 10).1.map (fun o => o.map JobRow.job_id) =
      [some "job2", some "job4", some "job1", some "job3"]) :=
  dequeue_priority_fifo dbFour "w1" 10 (claimUpdate "w1" 10 (mkRow "job2" "/v2" .pending 5 2))
    (by rfl)

theorem get_status_map_update (db : QueueState) (jid : String) (g : JobRow → JobRow)
    (hg : ∀ r, (g r).job_id = r.job_id) :
    get_status (db.map (fun r => if r.job_id = jid then g r else r)) jid =
      (get_status db jid).map g := by
  induction db with
  | nil => rfl
  | cons r rest ih =>
    by_cases h : r.job_id = jid
    · simp [get_status, List.map_cons, if_pos h, List.find?_cons_of_pos, hg r, h]
    · simp only [get_status, List.map_cons, if_neg h] at *
      rw [List.find?_cons_of_neg _ (by simpa using h),
          List.find?_cons_of_neg _ (by simpa using h)]
      exact ih

theorem truncated_error_le (error e : String) (he : truncate_error error = some e) :
    e.length ≤ 500 := by
  unfold truncate_error at he
  by_cases h0 : error = ""
  · rw [if_pos h0] at he; cases he
  · rw [if_neg h0] at he
    injection he with he
    rw [← he, String.take_eq]
    show (error.data.take 500).length ≤ 500
    simp

/-- C3: `ack_fail` increments `attempt_count`; with `retry = true` while
the incremented count stays below `max_attempts` the job returns to
`pending` with `worker_id` cleared and the error stored truncated to at
most 500 characters, otherwise it becomes `failed` with `completed_at`
set.  A `max_attempts = 3` job failed with retry three times ends
`failed` with `attempt_count = 3`; the same job failing twice and then
acked successfully ends `succeeded`. -/
theorem ack_fail_retry_semantics (db : QueueState) (job_id error : String) (retry : Bool)
    (now : Int) (item : JobRow)
    (hst : get_status db job_id = some item)
    (hvp : get_item_state db item.video_path = some item) :
    (∃ db', ack_fail db job_id error retry now = Except.ok db' ∧
      ∃ row, get_status db' job_id = some row ∧
        row.attempt_count = item.attempt_count + 1 ∧
        (∀ e, row.last_error = some e → e.length ≤ 500) ∧
        (retry = true → item.attempt_count + 1 < item.max_attempts →
          row.status = .pending ∧ row.worker_id = none) ∧
        (¬(retry = true ∧ item.attempt_count + 1 < item.max_attempts) →
          row.status = .failed ∧ row.completed_at = some now)) ∧
    (∃ dbA dbB dbC,
      ack_fail (dequeue scenarioDb "w" 1).2 "j1" "boom" true 2 = Except.ok dbA ∧
      ack_fail (dequeue dbA "w" 3).2 "j1" "boom" true 4 = Except.ok dbB ∧
      ack_fail (dequeue dbB "w" 5).2 "j1" "boom" true 6 = Except.ok dbC ∧
      ∃ row, get_status dbC "j1" = some row ∧
        row.status = .failed ∧ row.attempt_count = 3) ∧
    (∃ dbA dbB dbC,
      ack_fail (dequeue scenarioDb "w" 1).2 "j1" "boom" true 2 = Except.ok dbA ∧
      ack_fail (dequeue dbA "w" 3).2 "j1" "boom" true 4 = Except.ok dbB ∧
      ack_success (fun s => s) [("o", "x")] (dequeue dbB "w" 5).2 "j1" ["o"] 6 =
        Except.ok dbC ∧
      ∃ row, get_status dbC "j1" = some row ∧
        row.status = .succeeded ∧ row.attempt_count = 2) := by
  refine ⟨?_, ⟨_, _, _, rfl, rfl, rfl, _, rfl, rfl, rfl⟩,
    ⟨_, _, _, rfl, rfl, rfl, _, rfl, rfl, rfl⟩⟩
  by_cases hc : (retry = true) ∧ item.attempt_count + 1 < item.max_attempts
  · have heq : ack_fail db job_id error retry now = Except.ok (db.map (fun r =>
        if r.job_id = job_id then
          { r with status := .pending, attempt_count := item.attempt_count + 1,
                   last_error := truncate_error error, worker_id := none }
        else r)) := by
      unfold ack_fail
      simp only [hst]
      simp only [hvp]
      rw [if_pos hc]
    refine ⟨_, heq, ?_⟩
    rw [get_status_map_update db job_id (fun r =>
      { r with status := .pending, attempt_count := item.attempt_count + 1,
               last_error := truncate_error error, worker_id := none })
      (fun r => rfl), hst]
    refine ⟨_, rfl, rfl, ?_, fun _ _ => ⟨rfl, rfl⟩, fun hcon => absurd hc hcon⟩
    intro e he
    exact truncated_error_le error e he
  · have heq : ack_fail db job_id error retry now = Except.ok (db.map (fun r =>
        if r.job_id = job_id then
          { r with status := .failed, completed_at := some now,
                   attempt_count := item.attempt_count + 1,
                   last_error := truncate_error error }
        else r)) := by
      unfold ack_fail
      simp only [hst]
      simp only [hvp]
      rw [if_neg hc]
    refine ⟨_, heq, ?_⟩
    rw [get_status_map_update db job_id (fun r =>
      { r with status := .failed, completed_at := some now,
               attempt_count := item.attempt_count + 1,
               last_error := truncate_error error })
      (fun r => rfl), hst]
    refine ⟨_, rfl, rfl, ?_, ?_, fun _ => ⟨rfl, rfl⟩⟩
    · intro e he
      exact truncated_error_le error e he
    · intro hr ha
      exact absurd ⟨hr, ha⟩ hc

/-- Witness for `ack_fail_retry_semantics` at a concrete one-job queue in
the `running` state. -/
theorem ack_fail_retry_semantics_witness :
    get_status (dequeue scenarioDb "w" 1).2 "j1" =
        some (claimUpdate "w" 1 (mkRow "j1" "/v" .pending 0 1)) ∧
      (∃ db', ack_fail (dequeue scenarioDb "w" 1).2 "j1" "boom" true 2 = Except.ok db' ∧
        ∃ row, get_status db' "j1" = some row ∧
          row.attempt_count = (claimUpdate "w" 1 (mkRow "j1" "/v" .pending 0 1)).attempt_count + 1 ∧
          (∀ e, row.last_error = some e → e.length ≤ 500) ∧
          (true = true →
            (claimUpdate "w" 1 (mkRow "j1" "/v" .pending 0 1)).attempt_count + 1 <
              (claimUpdate "w" 1 (mkRow "j1" "/v" .pending 0 1)).max_attempts →
            row.status = .pending ∧ row.worker_id = none) ∧
          (¬(true = true ∧
              (claimUpdate "w" 1 (mkRow "j1" "/v" .pending 0 1)).attempt_count + 1 <
                (claimUpdate "w" 1 (mkRow "j1" "/v" .pending 0 1)).max_attempts) →
            row.status = .failed ∧ row.completed_at = some 2)) :=
  ⟨by decide,
   (ack_fail_retry_semantics (dequeue scenarioDb "w" 1).2 "j1" "boom" true 2
      (claimUpdate "w" 1 (mkRow "j1" "/v" .pending 0 1)) (by decide) (by decide)).1⟩


theorem noNewSucceeded_map (db : QueueState) (f : JobRow → JobRow)
    (hf : ∀ r, (f r).status = .succeeded → r.job_id = (f r).job_id ∧ r.status = .succeeded) :
    noNewSucceeded db (db.map f) := by
  intro r' hr' hs
  obtain ⟨r, hr, rfl⟩ := List.mem_map.mp hr'
  exact ⟨r, hr, (hf r hs).1, (hf r hs).2⟩

theorem noNewSucceeded_refl (db : QueueState) : noNewSucceeded db db :=
  fun r' hr' hs => ⟨r', hr', rfl, hs⟩

theorem noNewSucceeded_ite (db : QueueState) (c : JobRow → Prop) [DecidablePred c]
    (u : JobRow → JobRow)
    (hid : ∀ r, (u r).job_id = r.job_id)
    (hs : ∀ r, (u r).status = .succeeded → r.status = .succeeded) :
    noNewSucceeded db (db.map (fun r => if c r then u r else r)) := by
  apply noNewSucceeded_map
  intro r hsr
  by_cases h : c r
  · rw [if_pos h] at hsr
    rw [if_pos h]
    exact ⟨(hid r).symm, hs r hsr⟩
  · rw [if_neg h] at hsr
    rw [if_neg h]
    exact ⟨rfl, hsr⟩

/-- C9 counterexample: the `ack_success` UPDATE carries no status guard in
its WHERE clause — called on a job whose current status is `pending` it
still commits `status=succeeded`. -/
theorem ack_success_no_status_guard_counterexample :
    (mkRow "j1" "/v" .pending 0 1).status = .pending ∧
      ack_success (fun s => s) [("o", "x")] [mkRow "j1" "/v" .pending 0 1] "j1" ["o"] 5 =
        Except.ok [{ mkRow "j1" "/v" .pending 0 1 with
                      status := .succeeded, completed_at := some 5,
                      output_files := ["o"], output_hashes := [("o", "x")] }] :=
  ⟨rfl, rfl⟩

/-- C9 amended: among the queue operations, only `ack_success` produces
`succeeded` — `dequeue`, `ack_fail`, `reset_stale_running`,
`update_heartbeat`, `mark_dirty` and `enqueue` of a pending item never
turn a not-yet-succeeded job into `succeeded`; but `ack_success` itself
sets the addressed job to `succeeded` regardless of its current status
(there is no running-only guard). -/
theorem succeeded_only_from_ack_success (db : QueueState) (w jid path error : String)
    (retry : Bool) (now t : Int) (item : JobRow) (hitem : item.status = .pending) :
    noNewSucceeded db (dequeue db w now).2 ∧
    (∀ db', ack_fail db jid error retry now = Except.ok db' → noNewSucceeded db db') ∧
    noNewSucceeded db (reset_stale_running db t now).1 ∧
    noNewSucceeded db (update_heartbeat db jid now) ∧
    noNewSucceeded db (mark_dirty db path now) ∧
    noNewSucceeded db (enqueue db item) ∧
    (∀ hash fs files db' r, ack_success hash fs db jid files now = Except.ok db' →
      get_status db jid = some r →
      ∃ r', get_status db' jid = some r' ∧ r'.status = .succeeded ∧ r'.job_id = r.job_id) := by
  refine ⟨?_, ?_, ?_, ?_, ?_, ?_, ?_⟩
  · unfold dequeue
    cases hsel : selectNext db with
    | none => exact noNewSucceeded_refl db
    | some j =>
      exact noNewSucceeded_ite db (fun r => r.job_id = j.job_id) (claimUpdate w now)
        (fun r => rfl) (fun r hsr => nomatch hsr)
  · intro db' h
    unfold ack_fail at h
    cases hst : get_status db jid with
    | none => rw [hst] at h; cases h
    | some st =>
      simp only [hst] at h
      cases hvp : get_item_state db st.video_path with
      | none => rw [hvp] at h; cases h
      | some it =>
        simp only [hvp] at h
        split at h <;> injection h with h <;> rw [← h]
        · exact noNewSucceeded_ite db (fun r => r.job_id = jid)
            (fun r => { r with status := .pending, attempt_count := it.attempt_count + 1,
                               last_error := truncate_error error, worker_id := none })
            (fun r => rfl) (fun r hsr => nomatch hsr)
        · exact noNewSucceeded_ite db (fun r => r.job_id = jid)
            (fun r => { r with status := .failed, completed_at := some now,
                               attempt_count := it.attempt_count + 1,
                               last_error := truncate_error error })
            (fun r => rfl) (fun r hsr => nomatch hsr)
  · exact noNewSucceeded_ite db (fun r => is_stale now t r = true)
      (fun r => { r with status := .pending, worker_id := none })
      (fun r => rfl) (fun r hsr => nomatch hsr)
  · exact noNewSucceeded_ite db (fun r => r.job_id = jid ∧ r.status = .running)
      (fun r => { r with last_heartbeat := some now })
      (fun r => rfl) (fun r hsr => hsr)
  · exact noNewSucceeded_ite db (fun r => r.video_path = path)
      (fun r => { r with status := .dirty, updated_at := some now })
      (fun r => rfl) (fun r hsr => nomatch hsr)
  · have hup : noNewSucceeded db (upsert_item db (rowOfEnqueue item)) := by
      intro r' hr' hs
      unfold upsert_item at hr'
      rcases List.mem_append.mp hr' with hl | hr0
      · exact ⟨r', (List.mem_filter.mp hl).1, rfl, hs⟩
      · rw [List.mem_singleton.mp hr0] at hs
        rw [show (rowOfEnqueue item).status = item.status from rfl, hitem] at hs
        cases hs
    unfold enqueue
    cases hex : get_item_state db item.video_path with
    | none => exact hup
    | some ex =>
      by_cases hs : ex.status = .succeeded ∨ ex.status = .running
      · simp only [if_pos hs]
        exact noNewSucceeded_refl db
      · simp only [if_neg hs]
        exact hup
  · intro hash fs files db' r h hr
    unfold ack_success at h
    cases hfm : firstMissing fs files with
    | some p => rw [hfm] at h; cases h
    | none =>
      simp only [hfm] at h
      cases hho : hashOutputs hash fs files with
      | error e => rw [hho] at h; cases h
      | ok hs' =>
        simp only [hho] at h
        injection h with h
        rw [← h]
        rw [get_status_map_update db jid (fun r =>
          { r with status := .succeeded, completed_at := some now,
                   output_files := files, output_hashes := hs' })
          (fun r => rfl), hr]
        exact ⟨_, rfl, rfl, rfl⟩

/-- Witness for `succeeded_only_from_ack_success`: the dequeue conjunct at
a concrete queue. -/
theorem succeeded_only_from_ack_success_witness :
    noNewSucceeded scenarioDb (dequeue scenarioDb "w" 1).2 :=
  (succeeded_only_from_ack_success scenarioDb "w" "j1" "/v" "e" true 1 1
    (mkRow "b" "/v2" .pending 0 2) rfl).1


theorem claim_map_ids (db : QueueState) (jid w : String) (now : Int) :
    (db.map (fun r => if r.job_id = jid then claimUpdate w now r else r)).map JobRow.job_id =
      db.map JobRow.job_id := by
  rw [List.map_map]
  apply List.map_congr_left
  intro r _
  by_cases h : r.job_id = jid
  · simp [h, claimUpdate]
  · simp [h]

theorem map_noop_of_no_id (rest : QueueState) (jid w : String) (now : Int)
    (hno : ∀ r ∈ rest, r.job_id ≠ jid) :
    rest.map (fun r => if r.job_id = jid then claimUpdate w now r else r) = rest := by
  induction rest with
  | nil => rfl
  | cons x xs ih =>
    rw [List.map_cons, if_neg (hno x (by simp)), ih (fun r hr => hno r (by simp [hr]))]

theorem pendingIds_cons (r : JobRow) (rest : QueueState) :
    pendingIds (r :: rest) =
      if r.status = .pending then r.job_id :: pendingIds rest else pendingIds rest := by
  by_cases h : r.status = .pending <;> simp [pendingIds, List.filter_cons, h]

theorem pendingIds_nodup (db : QueueState) (hids : (db.map JobRow.job_id).Nodup) :
    (pendingIds db).Nodup :=
  List.Nodup.sublist (List.Sublist.map JobRow.job_id (List.filter_sublist db)) hids

theorem job_id_mem_pendingIds {db : QueueState} {j : JobRow} (hj : j ∈ db)
    (hp : j.status = .pending) : j.job_id ∈ pendingIds db :=
  List.mem_map_of_mem _ (List.mem_filter.mpr ⟨hj, by simpa using hp⟩)

theorem selectNext_isSome_of_pending {db : QueueState} (h : pendingIds db ≠ []) :
    ∃ j, selectNext db = some j := by
  cases hsel : selectNext db with
  | some j => exact ⟨j, rfl⟩
  | none =>
    exfalso
    apply h
    have hf := (selectNext_eq_none db).mp hsel
    simp [pendingIds, hf]

theorem pendingIds_claim (db : QueueState) (jid w : String) (now : Int)
    (j : JobRow) (hjid : j.job_id = jid) (hpend : j.status = .pending)
    (hids : (db.map JobRow.job_id).Nodup) (hj : j ∈ db) :
    pendingIds (db.map (fun r => if r.job_id = jid then claimUpdate w now r else r)) =
      (pendingIds db).erase jid := by
  induction db with
  | nil => cases hj
  | cons x rest ih =>
    rw [List.map_cons] at hids
    obtain ⟨hnotin, hnd⟩ := List.nodup_cons.mp hids
    by_cases hx : x.job_id = jid
    · have hjx : j = x := by
        rcases List.mem_cons.mp hj with rfl | hjr
        · rfl
        · exfalso
          apply hnotin
          rw [hx, ← hjid]
          exact List.mem_map_of_mem JobRow.job_id hjr
      rw [List.map_cons, if_pos hx]
      rw [map_noop_of_no_id rest jid w now (fun r hr hreq => by
        apply hnotin
        rw [hx, ← hreq]
        exact List.mem_map_of_mem JobRow.job_id hr)]
      rw [pendingIds_cons, if_neg (fun hh => nomatch hh)]
      rw [pendingIds_cons, if_pos (hjx ▸ hpend)]
      rw [show x.job_id = jid from hjx ▸ hjid]
      rw [List.erase_cons_head]
    · have hjrest : j ∈ rest := by
        rcases List.mem_cons.mp hj with rfl | hjr
        · exact absurd hjid hx
        · exact hjr
      rw [List.map_cons, if_neg hx]
      rw [pendingIds_cons, pendingIds_cons]
      by_cases hxp : x.status = .pending
      · rw [if_pos hxp, if_pos hxp, ih hnd hjrest]
        rw [List.erase_cons_tail]
        simp [hx]
      · rw [if_neg hxp, if_neg hxp, ih hnd hjrest]


theorem runDequeues_spec (workers : List String) (db : QueueState) (now : Int)
    (hids : (db.map JobRow.job_id).Nodup)
    (hcount : (pendingIds db).length = workers.length) :
    List.Forall₂ (fun w r => ∃ j, r = some j ∧ j.status = .running ∧ j.worker_id = some w)
      workers (runDequeues db workers now).1 ∧
    (∀ x, x ∈ ((runDequeues db workers now).1.filterMap id).map JobRow.job_id →
        x ∈ pendingIds db) ∧
    (((runDequeues db workers now).1.filterMap id).map JobRow.job_id).Nodup := by
  induction workers generalizing db with
  | nil =>
    refine ⟨List.Forall₂.nil, ?_, ?_⟩ <;> simp [runDequeues]
  | cons w ws ih =>
    have hne : pendingIds db ≠ [] := by
      intro h0
      rw [h0] at hcount
      simp at hcount
    obtain ⟨j, hsel⟩ := selectNext_isSome_of_pending hne
    obtain ⟨hjmem, hjpend, _⟩ := selectNext_spec db j hsel
    have hdeq1 : (dequeue db w now).1 = some (claimUpdate w now j) := by
      unfold dequeue
      rw [hsel]
    have hdeq2 : (dequeue db w now).2 =
        db.map (fun r => if r.job_id = j.job_id then claimUpdate w now r else r) := by
      unfold dequeue
      rw [hsel]
    have hids1 : ((dequeue db w now).2.map JobRow.job_id).Nodup := by
      rw [hdeq2, claim_map_ids]
      exact hids
    have hpend1 : pendingIds (dequeue db w now).2 = (pendingIds db).erase j.job_id := by
      rw [hdeq2]
      exact pendingIds_claim db j.job_id w now j rfl hjpend hids hjmem
    have hjid_mem : j.job_id ∈ pendingIds db := job_id_mem_pendingIds hjmem hjpend
    have hlen1 : (pendingIds (dequeue db w now).2).length = ws.length := by
      rw [hpend1]
      have h1 := List.length_erase_add_one hjid_mem
      rw [List.length_cons] at hcount
      omega
    obtain ⟨hfa, hsub, hnd⟩ := ih (dequeue db w now).2 hids1 hlen1
    have hpnodup := pendingIds_nodup db hids
    have hstep1 : (runDequeues db (w :: ws) now).1 =
        (dequeue db w now).1 :: (runDequeues (dequeue db w now).2 ws now).1 := rfl
    refine ⟨?_, ?_, ?_⟩
    · rw [hstep1, hdeq1]
      exact List.Forall₂.cons ⟨claimUpdate w now j, rfl, rfl, rfl⟩ hfa
    · intro x hx
      rw [hstep1, hdeq1] at hx
      rw [List.filterMap_cons] at hx
      simp only [id] at hx
      rw [List.map_cons] at hx
      rcases List.mem_cons.mp hx with rfl | hx2
      · exact hjid_mem
      · have := hsub x hx2
        rw [hpend1] at this
        exact List.mem_of_mem_erase this
    · rw [hstep1, hdeq1]
      rw [List.filterMap_cons]
      simp only [id]
      rw [List.map_cons]
      refine List.nodup_cons.mpr ⟨?_, hnd⟩
      intro hmem
      have hx := hsub _ hmem
      rw [hpend1] at hx
      have := (List.Nodup.mem_erase_iff hpnodup).mp hx
      exact this.1 rfl

/-- C1: from a queue holding exactly N pending jobs, any serialization of N
concurrent `dequeue` calls with distinct worker ids (each call is one
atomic `BEGIN IMMEDIATE` transaction, so every concurrent execution
commits as such a sequence) claims each pending job at most once: all N
calls return a job, the returned jobs are pairwise distinct, every one of
them was pending beforehand, and each carries status `running` with its
caller's `worker_id`. -/
theorem dequeue_mutual_exclusion (db : QueueState) (workers : List String) (now : Int)
    (hids : (db.map JobRow.job_id).Nodup)
    (hw : workers.Nodup)
    (hpos : 1 ≤ workers.length)
    (hcount : (db.filter (fun r => r.status = .pending)).length = workers.length) :
    List.Forall₂ (fun w r => ∃ j, r = some j ∧ j.status = .running ∧ j.worker_id = some w)
      workers (runDequeues db workers now).1 ∧
    (((runDequeues db workers now).1.filterMap id).map JobRow.job_id).Nodup ∧
    (∀ j, some j ∈ (runDequeues db workers now).1 → j.job_id ∈ pendingIds db) := by
  have hcount' : (pendingIds db).length = workers.length := by
    rw [pendingIds, List.length_map]
    exact hcount
  obtain ⟨hfa, hsub, hnd⟩ := runDequeues_spec workers db now hids hcount'
  refine ⟨hfa, hnd, ?_⟩
  intro j hj
  apply hsub
  apply List.mem_map_of_mem
  rw [List.mem_filterMap]
  exact ⟨some j, hj, rfl⟩

/-- Witness for `dequeue_mutual_exclusion`: two workers against a queue of
exactly two pending jobs. -/
theorem dequeue_mutual_exclusion_witness :
    List.Forall₂ (fun w r => ∃ j, r = some j ∧ j.status = .running ∧ j.worker_id = some w)
      ["w1", "w2"]
      (runDequeues [mkRow "a" "/a" .pending 0 1, mkRow "b" "/b" .pending 0 2]
        ["w1", "w2"] 5).1 ∧
    (((runDequeues [mkRow "a" "/a" .pending 0 1, mkRow "b" "/b" .pending 0 2]
        ["w1", "w2"] 5).1.filterMap id).map JobRow.job_id).Nodup ∧
    (∀ j, some j ∈ (runDequeues [mkRow "a" "/a" .pending 0 1, mkRow "b" "/b" .pending 0 2]
        ["w1", "w2"] 5).1 →
      j.job_id ∈ pendingIds [mkRow "a" "/a" .pending 0 1, mkRow "b" "/b" .pending 0 2]) :=
  dequeue_mutual_exclusion [mkRow "a" "/a" .pending 0 1, mkRow "b" "/b" .pending 0 2]
    ["w1", "w2"] 5 (by decide) (by decide) (by decide) (by decide)

end ContentAI
